import Mathlib

/-!
Verification of the contact-scraper service: a shallow embedding of its
URL normalizer, worker pool, job store, CSV batch runner and per-site
scrape pipeline, together with theorems settling the specification's
claims about them.

Python strings are modelled as `List Char`; machine integers as `Nat`/`Int`;
fallible operations return `Option` or an explicit outcome type.  External
collaborators (HTTP fetching, HTML extraction, the AI assistant, Redis and
the job table) appear as explicit oracle parameters or state threaded
through the functions, mirroring the call sites in the source.
-/

namespace ContactScraper

/-- Python `str` modelled as a list of characters. -/
abbrev Str := List Char

/-- Characters removed by Python `str.strip()` (the ASCII whitespace set:
space, tab, newline, carriage return, vertical tab, form feed). -/
def isPyWs (c : Char) : Bool :=
  c == ' ' || c == '\t' || c == '\n' || c == '\r' || c == '\x0b' || c == '\x0c'

/-- Remove the longest suffix of characters satisfying `P` (Python
`rstrip` with the character class `P`). -/
def rstripP (P : Char → Bool) (s : Str) : Str :=
  (s.reverse.dropWhile P).reverse

/-- Python `str.strip()`: drop leading and trailing whitespace. -/
def pyStrip (s : Str) : Str :=
  rstripP isPyWs (s.dropWhile isPyWs)

/-- Python `str.rstrip("/")`. -/
def rstripSlash (s : Str) : Str :=
  rstripP (fun c => c == '/') s

/-- Python `str.lower()` (ASCII letters; the inputs of interest are ASCII). -/
def lowerStr (s : Str) : Str := s.map Char.toLower

/-- The literal `"http://"`. -/
def httpPre : Str := ['h', 't', 't', 'p', ':', '/', '/']

/-- The literal `"https://"`. -/
def httpsPre : Str := ['h', 't', 't', 'p', 's', ':', '/', '/']

/-- The literal `"www."`. -/
def wwwPre : Str := ['w', 'w', 'w', '.']

/-- Scheme canonicalization step of `normalize_url`
(src/app/services/scraper_utils.py lines 26-29): a leading `https://` is
replaced by `http://`; a string not starting with `http://` gets `http://`
prepended; otherwise the string is unchanged.  The prefix tests are the
case-sensitive Python `str.startswith`. -/
def addScheme (s : Str) : Str :=
  if httpsPre.isPrefixOf s then httpPre ++ s.drop 8
  else if httpPre.isPrefixOf s then s
  else httpPre ++ s

/-- Characters ending the netloc component in `urllib.parse.urlsplit`. -/
def isNetlocStop (c : Char) : Bool := c == '/' || c == '?' || c == '#'

/-- Characters ending the path component (start of query or fragment). -/
def isPathStop (c : Char) : Bool := c == '?' || c == '#'

/-- `urlparse(u).netloc` for a `u` that starts with `http://` (as every
input of the `urlparse` call in `normalize_url` does after `addScheme`):
the characters after `http://` up to the first `/`, `?` or `#`. -/
def urlNetloc (u : Str) : Str :=
  (u.drop 7).takeWhile (fun c => !isNetlocStop c)

/-- The remainder of `u` after the netloc component. -/
def urlAfterNetloc (u : Str) : Str :=
  (u.drop 7).dropWhile (fun c => !isNetlocStop c)

/-- The path-with-params component: the remainder after the netloc up to
the first `?` or `#` (query and fragment are split off and discarded by
`normalize_url`, which only uses `parsed.path`). -/
def urlPathRaw (u : Str) : Str :=
  (urlAfterNetloc u).takeWhile (fun c => !isPathStop c)

/-- Index of the first occurrence of `c` in `s` at position `start` or
later (Python `s.find(c, start)`), if any. -/
def findIdxFrom (c : Char) (s : Str) (start : Nat) : Option Nat :=
  match (s.drop start).findIdx? (fun x => x == c) with
  | none => none
  | some i => some (start + i)

/-- Index of the last `/` in `s` (Python `s.rfind("/")`); only used when
`s` contains a `/`. -/
def lastSlashIdx (s : Str) : Nat :=
  s.length - 1 - ((s.reverse.findIdx? (fun x => x == '/')).getD 0)

/-- `urllib.parse._splitparams` as used by `urlparse`: when the path
contains a `;`, the parameters after the first `;` in the last path
segment are split off (and discarded by `normalize_url`, which only reads
`parsed.path`). -/
def splitParams (p : Str) : Str :=
  if p.contains ';' then
    if p.contains '/' then
      match findIdxFrom ';' p (lastSlashIdx p) with
      | none => p
      | some i => p.take i
    else p.take ((p.findIdx? (fun x => x == ';')).getD p.length)
  else p

/-- The netloc bracket validation in `urllib.parse.urlsplit`: a `[`
without `]` (or vice versa) raises `ValueError("Invalid IPv6 URL")`. -/
def badBrackets (n : Str) : Bool :=
  (n.contains '[' && !n.contains ']') || (n.contains ']' && !n.contains '[')

/-- The parse-and-rebuild part of `normalize_url`, applied to the
stripped, scheme-canonicalized url (which always starts with `http://`).
`none` is the `ValueError` path: either `urlparse` rejects unbalanced
IPv6 brackets in the netloc, or the netloc is empty.  Otherwise the
result is `"http://" + lowercased, www-stripped netloc + path`,
right-stripped of `/`. -/
def normalizeCore (url : Str) : Option Str :=
  let netloc := urlNetloc url
  if badBrackets netloc then none
  else if netloc.isEmpty then none
  else
    let netloc1 := lowerStr netloc
    let netloc2 := if wwwPre.isPrefixOf netloc1 then netloc1.drop 4 else netloc1
    some (rstripSlash (httpPre ++ netloc2 ++ splitParams (urlPathRaw url)))

/-- `normalize_url` from src/app/services/scraper_utils.py lines 9-44
(byte-identical logic in src/scraper/utils.py lines 8-31): strip the
input, canonicalize the scheme, then parse and rebuild. -/
def normalize_url (url0 : Str) : Option Str :=
  normalizeCore (addScheme (pyStrip url0))

/-- The `str(e)` of the `ValueError` that `normalize_url` lets escape to
its caller on invalid input (the messages of `urlsplit` and of the
explicit `raise` in the source respectively). -/
def normErrMsg (url0 : Str) : Str :=
  let url := addScheme (pyStrip url0)
  if badBrackets (urlNetloc url) then "Invalid IPv6 URL".data
  else "Invalid URL: ".data ++ url

/-- Host characters for which one pass of `normalize_url` is already
canonical: not a netloc terminator, not whitespace, not an ASCII
uppercase letter (so `lower` fixes it), no IPv6 bracket. -/
def goodHostChar (c : Char) : Bool :=
  !isNetlocStop c && !isPyWs c && !(c == '[') && !(c == ']') &&
    !(65 ≤ c.toNat && c.toNat ≤ 90)

/-- Path characters for which one pass of `normalize_url` is already
canonical: not a query/fragment start, not whitespace, not the parameter
separator `;`. -/
def goodPathChar (c : Char) : Bool :=
  !isPathStop c && !isPyWs c && !(c == ';')

/-- A normalized key in fully canonical form: it starts with `http://`,
its host part is nonempty, made of `goodHostChar` characters, and does
not itself start with `www.`; its path part is made of `goodPathChar`
characters; and it does not end with `/`.  On such strings
`normalize_url` is the identity (`normalize_url_fixed_on_canonical`); the
corrected idempotence claim is restricted to inputs whose normalized form
is canonical. -/
def canonicalKey (v : Str) : Bool :=
  httpPre.isPrefixOf v &&
  (let rest := v.drop 7
   let n := rest.takeWhile (fun c => !isNetlocStop c)
   let p := rest.dropWhile (fun c => !isNetlocStop c)
   !n.isEmpty && n.all goodHostChar && !wwwPre.isPrefixOf n &&
     p.all goodPathChar && !(v.getLast? == some '/'))

/-! ## Worker pool (src/app/services/worker_service.py)

The pool is a dispatcher thread plus one thread per running job, all
mutating `active_workers` under `self.lock`.  We model the shared state
and the atomic steps each thread performs; `activeWorkers` is an `Int` so
that the lower bound `0 ≤ activeWorkers` is a theorem, not an artifact of
truncated subtraction. -/

/-- Shared state of a `WorkerPool`: `queued` jobs in `job_queue`,
whether the dispatcher `holding` a job it pulled but has not yet placed,
jobs whose slot is reserved but whose thread has not yet entered the body
(`starting`), jobs inside `job_func` (`executing`), jobs past the body
but before the `finally` decrement (`finishing`), and the
`active_workers` counter itself. -/
structure PoolState where
  maxWorkers : Nat
  queued : Nat
  holding : Bool
  starting : Nat
  executing : Nat
  finishing : Nat
  activeWorkers : Int
deriving DecidableEq, Repr

/-- The pool as constructed by `WorkerPool.__init__(max_workers)`. -/
def initPool (m : Nat) : PoolState :=
  ⟨m, 0, false, 0, 0, 0, 0⟩

/-- Atomic events of the pool's threads. -/
inductive PoolEvent
  /-- `submit_job`: `self.job_queue.put(job_data)`. -/
  | submitJob
  /-- Dispatcher: `job_data = self.job_queue.get(timeout=1)`. -/
  | pullJob
  /-- Dispatcher, under `self.lock`: sees `active_workers < max_workers`,
  increments `active_workers` and breaks out of the wait loop. -/
  | reserveSlot
  /-- The worker thread started for the job enters `job_func`. -/
  | beginExec
  /-- `job_func` returns (`failed = false`) or raises and the exception is
  caught and logged (`failed = true`); either way control reaches the
  `finally` block. -/
  | finishBody (failed : Bool)
  /-- The `finally` block, under `self.lock`: `active_workers -= 1`. -/
  | releaseSlot

/-- Guarded transition function of the pool.  `none` means the event is
not enabled in this state. -/
def poolStep (s : PoolState) : PoolEvent → Option PoolState
  | .submitJob => some { s with queued := s.queued + 1 }
  | .pullJob =>
      if s.holding = false ∧ 0 < s.queued then
        some { s with queued := s.queued - 1, holding := true }
      else none
  | .reserveSlot =>
      if s.holding = true ∧ s.activeWorkers < s.maxWorkers then
        some { s with holding := false, starting := s.starting + 1,
                      activeWorkers := s.activeWorkers + 1 }
      else none
  | .beginExec =>
      if 0 < s.starting then
        some { s with starting := s.starting - 1, executing := s.executing + 1 }
      else none
  | .finishBody _ =>
      if 0 < s.executing then
        some { s with executing := s.executing - 1, finishing := s.finishing + 1 }
      else none
  | .releaseSlot =>
      if 0 < s.finishing then
        some { s with finishing := s.finishing - 1,
                      activeWorkers := s.activeWorkers - 1 }
      else none

/-- States reachable from a freshly constructed pool by any interleaving
of submissions, dispatcher steps and job lifecycles. -/
inductive PoolReachable (m : Nat) : PoolState → Prop
  | init : PoolReachable m (initPool m)
  | step {s e s'} : PoolReachable m s → poolStep s e = some s' → PoolReachable m s'

/-- `WorkerPool._execute_job` as a state transformer: the job body either
returns or raises; `except Exception` catches and logs, and the `finally`
block decrements `active_workers` exactly once in both cases.  The
function is total: no exception escapes it. -/
def execute_job (jobOutcome : Except String Unit) (s : PoolState) : PoolState :=
  let afterBody :=
    match jobOutcome with
    | .ok _ => s
    | .error _ => s
  { afterBody with activeWorkers := afterBody.activeWorkers - 1 }

/-! ## Job store (src/app/core/database.py, Supabase-backed)

A single job row; `update_job_status` and `increment_job_progress` are
the only mutators the batch runners call.  `increment_job_progress` is
split into its read (`get_job_status`) and its write (the Supabase
`update`) so that interleavings of concurrent increments can be
expressed. -/

/-- One row of `scraping.contact_scraper_jobs` (the fields the modelled
operations read or write; `id`, `created_at`, `original_filename` are set
at creation and never touched by them). -/
structure JobRecord where
  status : String
  total_rows : Nat
  processed_rows : Nat
  failed_rows : Nat
  completed_at : Option Nat
  error : Option String
  output_path : Option String
  input_path : Option String
deriving DecidableEq, Repr

/-- The row inserted by `create_job`. -/
def freshJob (total : Nat) : JobRecord :=
  ⟨"queued", total, 0, 0, none, none, none, none⟩

/-- Python truthiness of an optional string argument (`if status:` treats
both `None` and `""` as absent). -/
def truthyStr : Option String → Bool
  | none => false
  | some s => !(s == "")

/-- `update_job_status`: applies exactly the fields passed (with Python
truthiness for the string arguments and an `is not None` test for the
counters); setting status to `completed` or `failed` also stamps
`completed_at`.  There is no guard on the current status: terminal rows
are updated like any others. -/
def update_job_status (j : JobRecord) (now : Nat) (status : Option String)
    (processed failedR : Option Nat) (error outputPath inputPath : Option String) :
    JobRecord :=
  let j1 :=
    if truthyStr status then
      let j' := { j with status := status.getD "" }
      if status.getD "" == "completed" || status.getD "" == "failed" then
        { j' with completed_at := some now }
      else j'
    else j
  let j2 := match processed with
    | some p => { j1 with processed_rows := p }
    | none => j1
  let j3 := match failedR with
    | some fr => { j2 with failed_rows := fr }
    | none => j2
  let j4 := if truthyStr error then { j3 with error := error } else j3
  let j5 := if truthyStr outputPath then { j4 with output_path := outputPath } else j4
  if truthyStr inputPath then { j5 with input_path := inputPath } else j5

/-- The snapshot `increment_job_progress` takes via `get_job_status`
before computing the new counters. -/
structure IncrementSnapshot where
  processed_rows : Nat
  failed_rows : Nat
  total_rows : Nat
deriving DecidableEq, Repr

/-- The read half of `increment_job_progress`. -/
def incrementRead (j : JobRecord) : IncrementSnapshot :=
  ⟨j.processed_rows, j.failed_rows, j.total_rows⟩

/-- The write half of `increment_job_progress`: one Supabase `update`
writing counters computed from the snapshot, plus the auto-complete
transition when the snapshot says all rows are processed. -/
def incrementWrite (j : JobRecord) (snap : IncrementSnapshot) (failed : Bool)
    (now : Nat) : JobRecord :=
  let processed := snap.processed_rows + 1
  let failedR := snap.failed_rows + (if failed then 1 else 0)
  if snap.total_rows ≤ processed then
    { j with processed_rows := processed, failed_rows := failedR,
             status := "completed", completed_at := some now }
  else
    { j with processed_rows := processed, failed_rows := failedR }

/-- `increment_job_progress(job_id, failed)`: read the stored counters,
add one, write them back (a read-modify-write, not an atomic
increment). -/
def increment_job_progress (j : JobRecord) (failed : Bool) (now : Nat) : JobRecord :=
  incrementWrite j (incrementRead j) failed now

/-- The per-row increments a batch runner issues, in completion order;
`true` marks a failed row.  Both shipped runners issue them serially from
the job's own thread (csv_service's row loop; linkedin_csv_service's
single `as_completed` consumer loop). -/
def runRowIncrements (j : JobRecord) (flags : List Bool) (now : Nat) : JobRecord :=
  flags.foldl (fun a f => increment_job_progress a f now) j

/-! ## CSV batch runner (src/app/services/csv_service.py) -/

/-- How far `process_csv_background` gets before the row loop: the
storage download may fail, the designated column may be missing, or the
rows are processed with the given per-row failure flags. -/
inductive CsvInput
  | downloadFailed
  | missingColumn
  | rows (rowFailed : List Bool)

/-- The tail of `process_csv_background` after all rows are processed:
upload the output CSV, then mark the job `completed` with the output path,
or `failed` when the upload returned no path (lines 146-176). -/
def finalizeCsvJob (j : JobRecord) (uploadPath : Option String) (now : Nat) :
    JobRecord :=
  if truthyStr uploadPath then
    update_job_status j now (some "completed") none none none uploadPath none
  else
    update_job_status j now (some "failed") none none
      (some "Failed to upload processed CSV to storage") none none

/-- `process_csv_background` as a function of the job row and the
environment outcomes: set `processing`, bail out to `failed` on download
or column errors, otherwise run the per-row increments and finalize with
the output-upload result. -/
def process_csv_background (j : JobRecord) (input : CsvInput)
    (uploadPath : Option String) (now : Nat) : JobRecord :=
  let j1 := update_job_status j now (some "processing") none none none none none
  match input with
  | .downloadFailed =>
      update_job_status j1 now (some "failed") none none
        (some "Failed to download CSV from storage") none none
  | .missingColumn =>
      update_job_status j1 now (some "failed") none none
        (some "Column not found in CSV") none none
  | .rows flags => finalizeCsvJob (runRowIncrements j1 flags now) uploadPath now

/-! ## Scrape pipeline (src/app/services/contact_service.py)

`scrape_website` orchestrates the normalizer, the Redis contact cache,
the fetcher, the extractors and the AI assistant.  The fetcher, the
extractors (pure regex/BeautifulSoup functions of the page text),
`find_contact_page` and the chat/JSON-parse core of `validate_contacts`
are external collaborators, modelled as oracle fields of `ScrapeEnv`;
the cache is explicit state.  The outcome type distinguishes a returned
value from a Python exception escaping the function. -/

/-- The `{"company": [...], "personal": [...]}` dictionary. -/
structure LinkedinUrls where
  company : List String
  personal : List String
deriving DecidableEq, Repr

/-- Response schema `ContactInfo` (src/app/schemas/contact.py): `website`
and `status` are required, the rest default to empty. -/
structure ContactInfo where
  website : String
  emails : List String
  phones : List String
  linkedin_urls : LinkedinUrls
  status : String
deriving DecidableEq, Repr

/-- Response schema `ContactErrorResponse`. -/
structure ContactErrorResponse where
  website : String
  error : String
  status : String
deriving DecidableEq, Repr

/-- The union type `scrape_website` returns. -/
inductive ScrapeResult
  | info (c : ContactInfo)
  | err (e : ContactErrorResponse)
deriving DecidableEq, Repr

/-- A truthy JSON object stored in the contact cache, as seen after
`json.loads`: the recognized keys, each present or absent (extra keys
are ignored by the pydantic model).  `statusKey` is the value of a
`"status"` key if the object has one — `save_contact_to_cache` never
writes one. -/
structure CachedJson where
  website : Option String
  emails : Option (List String)
  phones : Option (List String)
  linkedin_urls : Option LinkedinUrls
  statusKey : Option String
deriving DecidableEq, Repr

/-- A truthy value found under a cache key: either a JSON object with
well-typed recognized fields, or some other JSON value (a list, number or
string), on which the cache-hit path's `cached.get` raises.  Falsy values
(`{}`, `""`, …) behave exactly like a miss (`if cached:`) and are not
represented. -/
inductive CacheVal
  | obj (d : CachedJson)
  | nonObj (desc : String)
deriving DecidableEq, Repr

/-- The Redis keyspace for one namespace, as an association list. -/
abbrev CacheMap := List (String × CacheVal)

/-- Look up a key. -/
def cacheLookup (m : CacheMap) (k : String) : Option CacheVal :=
  (m.find? (fun kv => kv.1 == k)).map (fun kv => kv.2)

/-- `setex`: (re)bind a key. -/
def cacheInsert (m : CacheMap) (k : String) (v : CacheVal) : CacheMap :=
  (k, v) :: m.filter (fun kv => !(kv.1 == k))

/-- The JSON object parsed from a successful validate-contacts chat
completion: each expected key present or absent. -/
structure AIValidation where
  valid_email : Option (List String)
  valid_phones : Option (List String)
  valid_linkedin_urls : Option LinkedinUrls
deriving DecidableEq, Repr

/-- External collaborators of the pipeline.  `fetch` is `fetch_page`
(`none` covers timeouts, connection errors and non-2xx, all caught there);
the extractors are the pure pattern-extraction functions of
scraper_utils.py, abstracted over; `findContactPage` is
`find_contact_page` (already `Option`-valued in the source);
`aiValidate` is the chat call plus `json.loads` inside
`validate_contacts`, where `none` means the call raised or its content
was unparsable.  `redisGetOk`/`redisSetOk` inject Redis errors, which the
database layer catches (a failing `get` reads as a miss, a failing
`setex` leaves the cache unchanged). -/
structure ScrapeEnv where
  redisGetOk : Bool
  redisSetOk : Bool
  fetch : String → Option String
  extractEmails : String → List String
  extractPhones : String → List String
  extractLinkedin : String → LinkedinUrls
  extractLinks : String → String → List String
  findContactPage : String → List String → Option String
  aiValidate : List String → List String → LinkedinUrls → Bool → Option AIValidation

/-- `get_contact_from_cache`: `none` on a Redis error, a missing key, an
unparsable JSON payload, or a falsy parsed value. -/
def get_contact_from_cache (env : ScrapeEnv) (cache : CacheMap) (website : String) :
    Option CacheVal :=
  if env.redisGetOk then cacheLookup cache website else none

/-- `save_contact_to_cache`: writes the document
`{website, emails, phones, linkedin_urls}` under the key — with no
`status` key — unless the `setex` raises, which is swallowed. -/
def save_contact_to_cache (env : ScrapeEnv) (cache : CacheMap) (website : String)
    (emails phones : List String) (li : LinkedinUrls) : CacheMap :=
  if env.redisSetOk then
    cacheInsert cache website (CacheVal.obj ⟨some website, some emails, some phones, some li, none⟩)
  else cache

/-- Python `e.strip().lower()` on one string. -/
def pyLowerStrip (s : String) : String := String.mk (lowerStr (pyStrip s.data))

/-- Python `p.strip()` on one string. -/
def pyStripStr (s : String) : String := String.mk (pyStrip s.data)

/-- Python `list(set(xs))`: duplicates removed; the iteration order of a
Python set is unspecified, fixed here as first-occurrence order. -/
def pySetList (l : List String) : List String := l.eraseDups

/-- `validate_contacts` (src/app/services/ai_service.py lines 57-148) at
the call shape `scrape_website` uses (`linkedin_urls` always the truthy
two-key dictionary): deduplicate and normalize the inputs, call the
assistant; on success, when LinkedIn validation was not requested, the
extracted LinkedIn sets are written back over the response; on any
failure the fallback is empty valid emails/phones with the LinkedIn sets
passed through. -/
def validate_contacts (env : ScrapeEnv) (emails phones : List String)
    (li : LinkedinUrls) (validateLinkedin : Bool) : AIValidation :=
  let emails1 := pySetList (emails.map pyLowerStrip)
  let phones1 := pySetList (phones.map pyStripStr)
  match env.aiValidate emails1 phones1 li validateLinkedin with
  | some v =>
      if validateLinkedin then v
      else { v with valid_linkedin_urls := some li }
  | none => { valid_email := some [], valid_phones := some [],
              valid_linkedin_urls := some li }

/-- The cache-hit expression
`ContactInfo(**cached, status=cached.get("status", "success"))`
(src/app/services/contact_service.py line 48), which runs outside the
function's `try` block.  A non-object raises `AttributeError` at
`cached.get`; an object with a `"status"` key raises `TypeError` (the
keyword is passed twice); an object without `website` fails pydantic
validation; otherwise missing optional fields take their schema
defaults and the status defaults to `"success"`. -/
def contactInfoFromCache (cv : CacheVal) : Except String ContactInfo :=
  match cv with
  | .nonObj _ => .error "AttributeError: cached value is not an object"
  | .obj d =>
    match d.statusKey with
    | some _ => .error "TypeError: got multiple values for keyword argument status"
    | none =>
      match d.website with
      | none => .error "ValidationError: website field required"
      | some w => .ok ⟨w, d.emails.getD [], d.phones.getD [],
                       d.linkedin_urls.getD ⟨[], []⟩, "success"⟩

/-- What a call to `scrape_website` produced: a returned value, or a
Python exception propagating to the caller. -/
inductive PyOutcome
  | val (r : ScrapeResult)
  | exn (msg : String)
deriving DecidableEq, Repr

/-- Result of one `scrape_website` call: its outcome, the cache state it
leaves behind, and the URLs it fetched (for stating the no-network-call
properties). -/
structure ScrapeOut where
  result : PyOutcome
  cache : CacheMap
  fetched : List String
deriving Repr

/-- Steps 2-3 of the pipeline after a successful homepage fetch: extract
from the homepage, optionally discover and fetch a contact page, and
union its extractions with the homepage's (lines 58-104).  Returns the
pre-validation emails, phones and LinkedIn sets together with the list of
fetched URLs. -/
def gatherContacts (env : ScrapeEnv) (website html : String)
    (skipContactPage : Bool) : (List String × List String × LinkedinUrls) × List String :=
  let emails0 := env.extractEmails html
  let phones0 := env.extractPhones html
  let li0 := env.extractLinkedin html
  let links := env.extractLinks html website
  if skipContactPage then ((emails0, phones0, li0), [website])
  else
    match env.findContactPage website links with
    | none => ((emails0, phones0, li0), [website])
    | some cp =>
      if cp == "" || cp == website then ((emails0, phones0, li0), [website])
      else
        match env.fetch cp with
        | none => ((emails0, phones0, li0), [website, cp])
        | some chtml =>
          if chtml == "" then ((emails0, phones0, li0), [website, cp])
          else
            ((emails0 ++ env.extractEmails chtml,
              phones0 ++ env.extractPhones chtml,
              ⟨pySetList (li0.company ++ (env.extractLinkedin chtml).company),
               pySetList (li0.personal ++ (env.extractLinkedin chtml).personal)⟩),
             [website, cp])

/-- The body of the `try` block of `scrape_website` (lines 50-159): fetch
the homepage (a missing or falsy body raises, caught below as the
homepage-failure error response), gather contacts, cache and return an
empty `no_contacts_found` record when nothing was found, otherwise
validate with the AI assistant, cache and return the validated record.
Every branch returns a value: `except Exception` converts any raise into
a `ContactErrorResponse`. -/
def scrapeMain (env : ScrapeEnv) (cache : CacheMap) (website : String)
    (validateLinkedin skipContactPage : Bool) : ScrapeOut :=
  match env.fetch website with
  | none => { result := .val (.err ⟨website, "Failed to fetch homepage", "error"⟩),
              cache := cache, fetched := [website] }
  | some html =>
    if html == "" then
      { result := .val (.err ⟨website, "Failed to fetch homepage", "error"⟩),
        cache := cache, fetched := [website] }
    else
      let g := gatherContacts env website html skipContactPage
      let emails := g.1.1
      let phones := g.1.2.1
      let li := g.1.2.2
      if emails.isEmpty && phones.isEmpty && li.company.isEmpty && li.personal.isEmpty then
        { result := .val (.info ⟨website, [], [], ⟨[], []⟩, "no_contacts_found"⟩),
          cache := save_contact_to_cache env cache website [] [] ⟨[], []⟩,
          fetched := g.2 }
      else
        let v := validate_contacts env emails phones li validateLinkedin
        let validEmails := v.valid_email.getD []
        let validPhones := v.valid_phones.getD []
        let validLi := v.valid_linkedin_urls.getD ⟨[], []⟩
        { result := .val (.info ⟨website, validEmails, validPhones, validLi, "success"⟩),
          cache := save_contact_to_cache env cache website validEmails validPhones validLi,
          fetched := g.2 }

/-- `scrape_website` (src/app/services/contact_service.py lines 18-159):
normalize (a `ValueError` becomes an error response naming the raw
input), check the cache — a hit is returned through
`contactInfoFromCache`, outside any `try`, so its exceptions escape —
and otherwise run the fetch/extract/validate body. -/
def scrape_website (env : ScrapeEnv) (cache : CacheMap) (raw : String)
    (validateLinkedin skipContactPage : Bool) : ScrapeOut :=
  match normalize_url raw.data with
  | none =>
      { result := .val (.err ⟨raw, String.mk (normErrMsg raw.data), "error"⟩),
        cache := cache, fetched := [] }
  | some wl =>
      let website := String.mk wl
      match get_contact_from_cache env cache website with
      | some cv =>
          match contactInfoFromCache cv with
          | .ok c => { result := .val (.info c), cache := cache, fetched := [] }
          | .error m => { result := .exn m, cache := cache, fetched := [] }
      | none => scrapeMain env cache website validateLinkedin skipContactPage

/-- A cache value of the shape every record written by
`save_contact_to_cache` has: a JSON object with a `website` key and no
`status` key. -/
def wellFormedCacheVal : CacheVal → Prop
  | .obj d => d.statusKey = none ∧ d.website.isSome = true
  | .nonObj _ => False

/-! ## Concrete environments used by witnesses and counterexamples -/

/-- A site whose pages contain no contacts at all: fetches succeed, every
extractor returns empty, the AI assistant is never needed (and fails if
called). -/
def emptySiteEnv : ScrapeEnv :=
  { redisGetOk := true, redisSetOk := true,
    fetch := fun _ => some "<html><body>hello</body></html>",
    extractEmails := fun _ => [],
    extractPhones := fun _ => [],
    extractLinkedin := fun _ => ⟨[], []⟩,
    extractLinks := fun _ _ => [],
    findContactPage := fun _ _ => none,
    aiValidate := fun _ _ _ _ => none }

/-- A site with extractable contacts whose AI validation call fails. -/
def aiDownEnv : ScrapeEnv :=
  { redisGetOk := true, redisSetOk := true,
    fetch := fun _ => some "<html>page</html>",
    extractEmails := fun _ => ["a@x.com"],
    extractPhones := fun _ => ["+1 202 555 0185"],
    extractLinkedin := fun _ => ⟨["https://linkedin.com/company/x"], []⟩,
    extractLinks := fun _ _ => [],
    findContactPage := fun _ _ => none,
    aiValidate := fun _ _ _ _ => none }

/-- A contact cache poisoned with a truthy JSON object that lacks the
required `website` field, under the key `"example.com"` normalizes to. -/
def malformedCache : CacheMap :=
  [("http://example.com", CacheVal.obj ⟨none, some [], none, none, none⟩)]

/-- A two-row job mid-processing, used to exhibit the lost-update
interleaving of `increment_job_progress`. -/
def c7job : JobRecord :=
  ⟨"processing", 2, 0, 0, none, none, none, none⟩

/-! ## List helper lemmas -/

theorem dropWhile_eq_self_of_head {P : Char → Bool} {l : Str}
    (h : ∀ c, l.head? = some c → P c = false) : l.dropWhile P = l := by
  cases l with
  | nil => rfl
  | cons a t => simp [List.dropWhile_cons, h a rfl]

theorem rstripP_eq_self {P : Char → Bool} {l : Str}
    (h : ∀ c, l.getLast? = some c → P c = false) : rstripP P l = l := by
  unfold rstripP
  rw [dropWhile_eq_self_of_head, List.reverse_reverse]
  intro c hc
  exact h c (by rwa [List.head?_reverse] at hc)

theorem head_dropWhile_false {P : Char → Bool} :
    ∀ (l : Str) {c : Char}, (l.dropWhile P).head? = some c → P c = false := by
  intro l
  induction l with
  | nil => intro c h; simp at h
  | cons a t ih =>
    intro c h
    rw [List.dropWhile_cons] at h
    by_cases ha : P a
    · rw [if_pos ha] at h; exact ih h
    · rw [if_neg ha] at h
      simp at h
      rw [← h]
      simpa using ha

theorem getLast?_rstripP {P : Char → Bool} (l : Str) {c : Char}
    (h : (rstripP P l).getLast? = some c) : P c = false := by
  unfold rstripP at h
  rw [List.getLast?_reverse] at h
  exact head_dropWhile_false l.reverse h

theorem takeWhile_all {P : Char → Bool} {l : Str}
    (h : ∀ c ∈ l, P c = true) : l.takeWhile P = l := by
  induction l with
  | nil => rfl
  | cons a t ih =>
    rw [List.takeWhile_cons, if_pos (h a (List.mem_cons_self a t))]
    rw [ih fun c hc => h c (List.mem_cons_of_mem a hc)]

theorem map_id_of_fixed {f : Char → Char} {l : Str}
    (h : ∀ c ∈ l, f c = c) : l.map f = l := by
  induction l with
  | nil => rfl
  | cons a t ih =>
    rw [List.map_cons, h a (List.mem_cons_self a t),
        ih fun c hc => h c (List.mem_cons_of_mem a hc)]

theorem contains_eq_false_of_not_mem {l : Str} {c : Char}
    (h : c ∉ l) : l.contains c = false := by
  cases hc : l.contains c with
  | false => rfl
  | true => exact absurd (by simpa using hc) h

theorem isPrefixOf_exists : ∀ {l m : Str}, l.isPrefixOf m = true → ∃ t, m = l ++ t := by
  intro l
  induction l with
  | nil => intro m _; exact ⟨m, rfl⟩
  | cons a l' ih =>
    intro m h
    cases m with
    | nil => simp [List.isPrefixOf] at h
    | cons b m' =>
      simp only [List.isPrefixOf, Bool.and_eq_true, beq_iff_eq] at h
      obtain ⟨t, ht⟩ := ih h.2
      exact ⟨t, by rw [h.1, ht]; rfl⟩

theorem isPrefixOf_append_self : ∀ (l t : Str), l.isPrefixOf (l ++ t) = true := by
  intro l
  induction l with
  | nil => intro t; simp [List.isPrefixOf]
  | cons a l' ih => intro t; simp [List.isPrefixOf, ih]

theorem isPrefixOf_append_stop {c : Char} :
    ∀ {pre : Str}, c ∉ pre → ∀ (s q : Str),
      pre.isPrefixOf (s ++ c :: q) = pre.isPrefixOf s := by
  intro pre
  induction pre with
  | nil => intro _ s q; simp [List.isPrefixOf]
  | cons p pre' ih =>
    intro hc s q
    cases s with
    | nil =>
      have hpc : (p == c) = false := by
        simp only [beq_eq_false_iff_ne, ne_eq]
        intro h
        exact hc (h ▸ List.mem_cons_self p pre')
      simp [List.isPrefixOf, hpc]
    | cons a s' =>
      simp only [List.cons_append, List.isPrefixOf, List.append_eq]
      rw [ih (fun h => hc (List.mem_cons_of_mem p h)) s' q]

theorem takeWhile_append_stop {P : Char → Bool} {c : Char} (hc : P c = false) :
    ∀ (a b : Str), (a ++ c :: b).takeWhile P = a.takeWhile P := by
  intro a b
  induction a with
  | nil => simp [List.takeWhile_cons, hc]
  | cons x a' ih =>
    simp only [List.cons_append, List.takeWhile_cons]
    by_cases hx : P x
    · rw [if_pos hx, if_pos hx, ih]
    · rw [if_neg hx, if_neg hx]

theorem dropWhile_append_stop {P : Char → Bool} {c : Char} (hc : P c = false) :
    ∀ (a b : Str), (a ++ c :: b).dropWhile P = a.dropWhile P ++ c :: b := by
  intro a b
  induction a with
  | nil => simp [List.dropWhile_cons, hc]
  | cons x a' ih =>
    simp only [List.cons_append, List.dropWhile_cons]
    by_cases hx : P x
    · rw [if_pos hx, if_pos hx, ih]
    · rw [if_neg hx, if_neg hx]; rfl

theorem pyStrip_parts {s : Str} (h : pyStrip s = s) :
    s.dropWhile isPyWs = s ∧ rstripP isPyWs s = s := by
  have hlen1 : (s.dropWhile isPyWs).length ≤ s.length :=
    (List.dropWhile_sublist isPyWs).length_le
  have hlen2 : (rstripP isPyWs (s.dropWhile isPyWs)).length ≤ (s.dropWhile isPyWs).length := by
    unfold rstripP
    calc ((s.dropWhile isPyWs).reverse.dropWhile isPyWs).reverse.length
        = ((s.dropWhile isPyWs).reverse.dropWhile isPyWs).length := List.length_reverse _
      _ ≤ (s.dropWhile isPyWs).reverse.length := (List.dropWhile_sublist isPyWs).length_le
      _ = (s.dropWhile isPyWs).length := List.length_reverse _
  have hlen : (s.dropWhile isPyWs).length = s.length := by
    have : (pyStrip s).length = s.length := by rw [h]
    unfold pyStrip at this
    omega
  have hdrop : s.dropWhile isPyWs = s :=
    (List.dropWhile_suffix (l := s) isPyWs).eq_of_length hlen
  constructor
  · exact hdrop
  · unfold pyStrip at h
    rwa [hdrop] at h

theorem pyStrip_append_stop {c : Char} (hcw : isPyWs c = false) {s : Str}
    (h : pyStrip s = s) (q : Str) :
    pyStrip (s ++ c :: q) = s ++ c :: rstripP isPyWs q := by
  obtain ⟨hd, _⟩ := pyStrip_parts h
  have hlstrip : (s ++ c :: q).dropWhile isPyWs = s ++ c :: q := by
    cases s with
    | nil => simp [List.dropWhile_cons, hcw]
    | cons a s' =>
      have ha : isPyWs a = false := by
        by_cases ha' : isPyWs a
        · exfalso
          rw [List.dropWhile_cons, if_pos ha'] at hd
          have h1 := (List.dropWhile_sublist (l := s') isPyWs).length_le
          have h2 := congrArg List.length hd
          simp at h2
          omega
        · simpa using ha'
      simp [List.dropWhile_cons, ha]
  unfold pyStrip
  rw [hlstrip]
  unfold rstripP
  have hrev : (s ++ c :: q).reverse = q.reverse ++ c :: s.reverse := by
    simp
  rw [hrev, List.dropWhile_append]
  by_cases he : (q.reverse.dropWhile isPyWs).isEmpty
  · rw [if_pos he]
    rw [List.dropWhile_cons, if_neg (by simp [hcw])]
    rw [List.isEmpty_iff] at he
    simp [he]
  · rw [if_neg he]
    simp

theorem addScheme_append_stop {c : Char} (h1 : c ∉ httpsPre) (h2 : c ∉ httpPre)
    (s q : Str) : addScheme (s ++ c :: q) = addScheme s ++ c :: q := by
  unfold addScheme
  rw [isPrefixOf_append_stop h1 s q, isPrefixOf_append_stop h2 s q]
  by_cases hs : httpsPre.isPrefixOf s
  · rw [if_pos hs, if_pos hs]
    obtain ⟨t, rfl⟩ := isPrefixOf_exists hs
    have hd1 : ((httpsPre ++ t) ++ c :: q).drop 8 = t ++ c :: q := by
      rw [List.append_assoc]; rfl
    have hd2 : (httpsPre ++ t).drop 8 = t := rfl
    rw [hd1, hd2, List.append_assoc]
  · rw [if_neg hs, if_neg hs]
    by_cases hh : httpPre.isPrefixOf s
    · rw [if_pos hh, if_pos hh]
    · rw [if_neg hh, if_neg hh, List.append_assoc]

theorem addScheme_starts (s : Str) : ∃ t, addScheme s = httpPre ++ t := by
  unfold addScheme
  by_cases hs : httpsPre.isPrefixOf s
  · rw [if_pos hs]; exact ⟨s.drop 8, rfl⟩
  · rw [if_neg hs]
    by_cases hh : httpPre.isPrefixOf s
    · rw [if_pos hh]; exact isPrefixOf_exists hh
    · rw [if_neg hh]; exact ⟨s, rfl⟩

theorem drop7_httpPre (t : Str) : (httpPre ++ t).drop 7 = t := rfl

theorem normalizeCore_append_stop {c : Char} (hnet : isNetlocStop c = true)
    (hpath : isPathStop c = true) (t q : Str) :
    normalizeCore (httpPre ++ (t ++ c :: q)) = normalizeCore (httpPre ++ t) := by
  have hnetloc : urlNetloc (httpPre ++ (t ++ c :: q)) = urlNetloc (httpPre ++ t) := by
    unfold urlNetloc
    rw [drop7_httpPre, drop7_httpPre,
        takeWhile_append_stop (by simp [hnet]) t q]
  have hafter : urlAfterNetloc (httpPre ++ (t ++ c :: q)) =
      urlAfterNetloc (httpPre ++ t) ++ c :: q := by
    unfold urlAfterNetloc
    rw [drop7_httpPre, drop7_httpPre,
        dropWhile_append_stop (by simp [hnet]) t q]
  have hpathraw : urlPathRaw (httpPre ++ (t ++ c :: q)) = urlPathRaw (httpPre ++ t) := by
    unfold urlPathRaw
    rw [hafter, takeWhile_append_stop (by simp [hpath])]
  unfold normalizeCore
  rw [hnetloc, hpathraw]

/-! ## Canonical fixed point of the normalizer -/

theorem goodHostChar_spec {c : Char} (h : goodHostChar c = true) :
    isNetlocStop c = false ∧ isPyWs c = false ∧ (c == '[') = false ∧
      (c == ']') = false ∧ (65 ≤ c.toNat && c.toNat ≤ 90) = false := by
  unfold goodHostChar at h
  simp only [Bool.and_eq_true, Bool.not_eq_true'] at h
  exact ⟨h.1.1.1.1, h.1.1.1.2, h.1.1.2, h.1.2, h.2⟩

theorem goodPathChar_spec {c : Char} (h : goodPathChar c = true) :
    isPathStop c = false ∧ isPyWs c = false ∧ (c == ';') = false := by
  unfold goodPathChar at h
  simp only [Bool.and_eq_true, Bool.not_eq_true'] at h
  exact ⟨h.1.1, h.1.2, h.2⟩

theorem toLower_fixed {c : Char} (h : (65 ≤ c.toNat && c.toNat ≤ 90) = false) :
    Char.toLower c = c := by
  unfold Char.toLower
  rw [if_neg]
  simp only [Bool.and_eq_false_iff, decide_eq_false_iff_not, not_le] at h
  intro hcon
  rcases h with h | h <;> omega

theorem normalize_url_fixed_on_canonical {v : Str} (h : canonicalKey v = true) :
    normalize_url v = some v := by
  unfold canonicalKey at h
  simp only [Bool.and_eq_true] at h
  obtain ⟨hpre, hrest⟩ := h
  obtain ⟨t, rfl⟩ := isPrefixOf_exists hpre
  rw [drop7_httpPre] at hrest
  simp only [Bool.and_eq_true, Bool.not_eq_true'] at hrest
  obtain ⟨⟨⟨⟨hne, hall⟩, hwww⟩, hpall⟩, hlast⟩ := hrest
  have hnall : ∀ c ∈ t.takeWhile (fun c => !isNetlocStop c), goodHostChar c = true := by
    simpa [List.all_eq_true] using hall
  have hpgood : ∀ c ∈ t.dropWhile (fun c => !isNetlocStop c), goodPathChar c = true := by
    simpa [List.all_eq_true] using hpall
  have htnp : t.takeWhile (fun c => !isNetlocStop c) ++
      t.dropWhile (fun c => !isNetlocStop c) = t :=
    List.takeWhile_append_dropWhile _ t
  have hallws : ∀ c ∈ (httpPre ++ t : Str), isPyWs c = false := by
    intro c hc
    rw [List.mem_append] at hc
    rcases hc with hc | hc
    · simp only [httpPre, List.mem_cons, List.not_mem_nil, or_false] at hc
      rcases hc with rfl | rfl | rfl | rfl | rfl | rfl | rfl <;> rfl
    · rw [← htnp, List.mem_append] at hc
      rcases hc with hc | hc
      · exact (goodHostChar_spec (hnall c hc)).2.1
      · exact (goodPathChar_spec (hpgood c hc)).2.1
  have hstrip : pyStrip (httpPre ++ t) = httpPre ++ t := by
    unfold pyStrip
    rw [dropWhile_eq_self_of_head (by
      intro c hc
      simp only [httpPre, List.cons_append, List.head?_cons, Option.some.injEq] at hc
      rw [← hc]; rfl)]
    exact rstripP_eq_self fun c hc => hallws c (List.mem_of_getLast?_eq_some hc)
  have hns : httpsPre.isPrefixOf (httpPre ++ t) = false := rfl
  have haddS : addScheme (httpPre ++ t) = httpPre ++ t := by
    simp [addScheme, hns, isPrefixOf_append_self]
  have hnet : urlNetloc (httpPre ++ t) = t.takeWhile (fun c => !isNetlocStop c) := by
    unfold urlNetloc; rw [drop7_httpPre]
  have hafter : urlAfterNetloc (httpPre ++ t) = t.dropWhile (fun c => !isNetlocStop c) := by
    unfold urlAfterNetloc; rw [drop7_httpPre]
  have hpathraw : urlPathRaw (httpPre ++ t) = t.dropWhile (fun c => !isNetlocStop c) := by
    unfold urlPathRaw
    rw [hafter]
    exact takeWhile_all fun c hc => by
      simp [(goodPathChar_spec (hpgood c hc)).1]
  have hnoLb : ('[' : Char) ∉ t.takeWhile (fun c => !isNetlocStop c) := by
    intro hmem
    have := (goodHostChar_spec (hnall _ hmem)).2.2.1
    simp at this
  have hnoRb : (']' : Char) ∉ t.takeWhile (fun c => !isNetlocStop c) := by
    intro hmem
    have := (goodHostChar_spec (hnall _ hmem)).2.2.2.1
    simp at this
  have hbr : badBrackets (t.takeWhile (fun c => !isNetlocStop c)) = false := by
    unfold badBrackets
    rw [contains_eq_false_of_not_mem hnoLb, contains_eq_false_of_not_mem hnoRb]
    rfl
  have hlow : lowerStr (t.takeWhile (fun c => !isNetlocStop c)) =
      t.takeWhile (fun c => !isNetlocStop c) :=
    map_id_of_fixed fun c hc => toLower_fixed (goodHostChar_spec (hnall c hc)).2.2.2.2
  have hnosemi : (';' : Char) ∉ t.dropWhile (fun c => !isNetlocStop c) := by
    intro hmem
    have := (goodPathChar_spec (hpgood _ hmem)).2.2
    simp at this
  have hsplit : splitParams (t.dropWhile (fun c => !isNetlocStop c)) =
      t.dropWhile (fun c => !isNetlocStop c) := by
    unfold splitParams
    rw [contains_eq_false_of_not_mem hnosemi]
    rfl
  have hslash : rstripSlash (httpPre ++ t) = httpPre ++ t := by
    apply rstripP_eq_self
    intro c hc
    rw [hc] at hlast
    simpa using hlast
  unfold normalize_url
  rw [hstrip, haddS]
  unfold normalizeCore
  rw [hnet, hpathraw]
  simp only []
  rw [hbr, hlow]
  simp only [Bool.false_eq_true, if_false]
  rw [if_neg (by simp [List.isEmpty_iff, hne] : ¬((t.takeWhile fun c => !isNetlocStop c).isEmpty = true))]
  rw [if_neg (by simp [hwww] : ¬(wwwPre.isPrefixOf (t.takeWhile fun c => !isNetlocStop c) = true))]
  rw [hsplit, List.append_assoc, htnp, hslash]

/-- Every successful normalization ends without a trailing slash (the
final `rstrip("/")`). -/
theorem normalize_url_no_trailing_slash {u v : Str} (h : normalize_url u = some v) :
    v.getLast? ≠ some '/' := by
  unfold normalize_url normalizeCore at h
  by_cases hbr : badBrackets (urlNetloc (addScheme (pyStrip u))) = true
  · rw [if_pos hbr] at h; exact absurd h (by simp)
  · rw [if_neg hbr] at h
    by_cases hem : (urlNetloc (addScheme (pyStrip u))).isEmpty = true
    · rw [if_pos hem] at h; exact absurd h (by simp)
    · rw [if_neg hem] at h
      simp only [Option.some.injEq] at h
      intro hcon
      have := getLast?_rstripP (P := fun c => c == '/')
        (httpPre ++ (if wwwPre.isPrefixOf (lowerStr (urlNetloc (addScheme (pyStrip u)))) then
          (lowerStr (urlNetloc (addScheme (pyStrip u)))).drop 4
         else lowerStr (urlNetloc (addScheme (pyStrip u)))) ++
          splitParams (urlPathRaw (addScheme (pyStrip u))))
        (by rw [← hcon, ← h]; rfl)
      simp at this

/-! ## Claim theorems: URL normalization (C4, C5, C10) -/

/-- C4 counterexample: `normalize_url` is not idempotent.  Each
application strips a single leading `www.`, so
`http://www.www.example.com` normalizes to `http://www.example.com`,
which renormalizes to `http://example.com`. -/
theorem normalize_url_not_idempotent_double_www :
    (normalize_url ("http://www.www.example.com".data)).bind normalize_url ≠
      normalize_url ("http://www.www.example.com".data) := by
  decide

/-- C4 (amended): a successfully normalized key never ends in `/`, and
renormalizing is the identity whenever the normalized form is canonical —
host nonempty, lowercase, not still starting with `www.`, free of
whitespace and brackets, path free of `;`/`?`/`#` — which excludes the
counterexample shapes (`www.www.…` hosts, hosts reduced to nothing, paths
with parameters). -/
theorem normalize_url_idempotent_on_canonical (u v : Str)
    (h : normalize_url u = some v) :
    v.getLast? ≠ some '/' ∧
      (canonicalKey v = true →
        (normalize_url u).bind normalize_url = normalize_url u) := by
  refine ⟨normalize_url_no_trailing_slash h, fun hv => ?_⟩
  rw [h]
  simpa [Option.bind] using normalize_url_fixed_on_canonical hv

/-- C4 witness: the theorem applied to `www.Example.com/about/`, whose
normalized form `http://example.com/about` is canonical. -/
theorem normalize_url_idempotent_on_canonical_witness :
    (normalize_url ("www.Example.com/about/".data) =
        some ("http://example.com/about".data) ∧
      canonicalKey ("http://example.com/about".data) = true) ∧
    ("http://example.com/about".data : Str).getLast? ≠ some '/' ∧
      (canonicalKey ("http://example.com/about".data) = true →
        (normalize_url ("www.Example.com/about/".data)).bind normalize_url =
          normalize_url ("www.Example.com/about/".data)) :=
  ⟨⟨by decide, by decide⟩,
    normalize_url_idempotent_on_canonical ("www.Example.com/about/".data)
      ("http://example.com/about".data) (by decide)⟩

/-- C5 counterexample: the scheme test is the case-sensitive
`startswith`, so `HTTPS://WWW.Example.com/` is treated as scheme-less and
prefixed with `http://`, yielding `http://https://WWW.Example.com` — not
the key `example.com` normalizes to. -/
theorem normalize_url_uppercase_scheme_differs :
    normalize_url ("HTTPS://WWW.Example.com/".data) =
        some ("http://https://WWW.Example.com".data) ∧
      normalize_url ("HTTPS://WWW.Example.com/".data) ≠
        normalize_url ("example.com".data) := by
  constructor
  · decide
  · decide

/-- C5 (amended): with the scheme written in lowercase the spec's example
holds — `https://WWW.Example.com/` and `example.com` normalize to the
same key `http://example.com` (host case and `www.` do collapse; only
the scheme letters are matched case-sensitively). -/
theorem normalize_url_lowercase_scheme_example :
    normalize_url ("https://WWW.Example.com/".data) =
        normalize_url ("example.com".data) ∧
      normalize_url ("example.com".data) = some ("http://example.com".data) := by
  constructor
  · decide
  · decide

/-- The invariance of `normalize_url` under appending a stop character
(`?` or `#`) plus arbitrary trailing text, for inputs that are already
stripped. -/
theorem normalize_url_append_stop {c : Char} (hc : c = '?' ∨ c = '#')
    {s : Str} (h : pyStrip s = s) (q : Str) :
    normalize_url (s ++ c :: q) = normalize_url s := by
  have hcw : isPyWs c = false := by rcases hc with rfl | rfl <;> rfl
  have hnet : isNetlocStop c = true := by rcases hc with rfl | rfl <;> rfl
  have hpath : isPathStop c = true := by rcases hc with rfl | rfl <;> rfl
  have hm1 : c ∉ httpsPre := by rcases hc with rfl | rfl <;> decide
  have hm2 : c ∉ httpPre := by rcases hc with rfl | rfl <;> decide
  unfold normalize_url
  rw [pyStrip_append_stop hcw h, addScheme_append_stop hm1 hm2, h]
  obtain ⟨t, ht⟩ := addScheme_starts s
  rw [ht, List.append_assoc]
  exact normalizeCore_append_stop hnet hpath t (rstripP isPyWs q)

/-- C10: the normalized key is built from scheme, host and path only —
appending a query string (`?…`) or a fragment (`#…`) to a stripped raw
URL never changes `normalize_url`'s result, so such URLs share one cache
entry and one job-result key. -/
theorem normalize_url_ignores_query_and_fragment (s q f : Str)
    (h : pyStrip s = s) :
    normalize_url (s ++ '?' :: q) = normalize_url s ∧
      normalize_url (s ++ '#' :: f) = normalize_url s :=
  ⟨normalize_url_append_stop (Or.inl rfl) h q,
   normalize_url_append_stop (Or.inr rfl) h f⟩

/-- C10 witness: `example.com?utm=1` and `example.com#top` normalize like
`example.com`. -/
theorem normalize_url_ignores_query_and_fragment_witness :
    pyStrip ("example.com".data) = "example.com".data ∧
      (normalize_url ("example.com".data ++ '?' :: "utm=1".data) =
          normalize_url ("example.com".data) ∧
        normalize_url ("example.com".data ++ '#' :: "top".data) =
          normalize_url ("example.com".data)) :=
  ⟨by decide,
    normalize_url_ignores_query_and_fragment ("example.com".data)
      ("utm=1".data) ("top".data) (by decide)⟩

/-! ## Claim theorems: worker pool (C1, C8) -/

theorem pool_invariant {m : Nat} {s : PoolState} (h : PoolReachable m s) :
    s.maxWorkers = m ∧
      s.activeWorkers = (s.starting : Int) + (s.executing : Int) + (s.finishing : Int) ∧
      s.activeWorkers ≤ (m : Int) := by
  induction h with
  | init => simp [initPool]
  | @step s e s' _ hstep ih =>
    obtain ⟨hm, hsum, hle⟩ := ih
    cases e with
    | submitJob =>
      simp only [poolStep] at hstep
      injection hstep with hstep
      subst hstep
      exact ⟨hm, hsum, hle⟩
    | pullJob =>
      simp only [poolStep] at hstep
      split at hstep
      · injection hstep with hstep
        subst hstep
        exact ⟨hm, hsum, hle⟩
      · exact absurd hstep (by simp)
    | reserveSlot =>
      simp only [poolStep] at hstep
      split at hstep
      · rename_i hcond
        injection hstep with hstep
        subst hstep
        refine ⟨hm, ?_, ?_⟩
        · simp only []
          push_cast
          omega
        · have := hcond.2
          rw [hm] at this
          simp only []
          omega
      · exact absurd hstep (by simp)
    | beginExec =>
      simp only [poolStep] at hstep
      split at hstep
      · rename_i hcond
        injection hstep with hstep
        subst hstep
        refine ⟨hm, ?_, hle⟩
        simp only []
        push_cast
        omega
      · exact absurd hstep (by simp)
    | finishBody b =>
      simp only [poolStep] at hstep
      split at hstep
      · rename_i hcond
        injection hstep with hstep
        subst hstep
        refine ⟨hm, ?_, hle⟩
        simp only []
        push_cast
        omega
      · exact absurd hstep (by simp)
    | releaseSlot =>
      simp only [poolStep] at hstep
      split at hstep
      · rename_i hcond
        injection hstep with hstep
        subst hstep
        refine ⟨hm, ?_, ?_⟩
        · simp only []
          omega
        · simp only []
          omega
      · exact absurd hstep (by simp)

/-- C1: in every state of the worker pool reachable by any interleaving
of job submissions, dispatcher slot reservations and job completions,
`0 ≤ active_workers ≤ max_workers` holds, and at most `max_workers` jobs
are inside `job_func` — the reservation happens under the lock only when
`active_workers < max_workers`, and the release under the same lock
decrements it once per finished job. -/
theorem worker_pool_bound (m : Nat) (s : PoolState) (h : PoolReachable m s) :
    0 ≤ s.activeWorkers ∧ s.activeWorkers ≤ (m : Int) ∧ s.executing ≤ m := by
  obtain ⟨hm, hsum, hle⟩ := pool_invariant h
  refine ⟨by omega, hle, by omega⟩

/-- C1 witness: the bound evaluated on the state reached from a fresh
two-worker pool by submit, pull, reserve, begin-execution. -/
theorem worker_pool_bound_witness :
    0 ≤ (⟨2, 0, false, 0, 1, 0, 1⟩ : PoolState).activeWorkers ∧
      (⟨2, 0, false, 0, 1, 0, 1⟩ : PoolState).activeWorkers ≤ ((2 : Nat) : Int) ∧
      (⟨2, 0, false, 0, 1, 0, 1⟩ : PoolState).executing ≤ 2 :=
  worker_pool_bound 2 ⟨2, 0, false, 0, 1, 0, 1⟩
    (PoolReachable.step
      (PoolReachable.step
        (PoolReachable.step
          (PoolReachable.step PoolReachable.init
            (show poolStep (initPool 2) PoolEvent.submitJob =
              some ⟨2, 1, false, 0, 0, 0, 0⟩ by decide))
          (show poolStep ⟨2, 1, false, 0, 0, 0, 0⟩ PoolEvent.pullJob =
            some ⟨2, 0, true, 0, 0, 0, 0⟩ by decide))
        (show poolStep ⟨2, 0, true, 0, 0, 0, 0⟩ PoolEvent.reserveSlot =
          some ⟨2, 0, false, 1, 0, 0, 1⟩ by decide))
      (show poolStep ⟨2, 0, false, 1, 0, 0, 1⟩ PoolEvent.beginExec =
        some ⟨2, 0, false, 0, 1, 0, 1⟩ by decide))

/-- C8: a job body that raises is indistinguishable, at the pool level,
from one that returns: `_execute_job` catches the exception, the
`finally` block still decrements `active_workers` exactly once, and the
`finishBody` transition of the interleaving model does not depend on the
failure flag, so the dispatch loop and every other queued or running job
see the same state either way. -/
theorem job_failure_isolated (e : String) (b : Bool) (s s' : PoolState)
    (h : poolStep s (PoolEvent.finishBody b) = some s') :
    execute_job (Except.error e) s = execute_job (Except.ok ()) s ∧
      (execute_job (Except.error e) s).activeWorkers = s.activeWorkers - 1 ∧
      (execute_job (Except.error e) s).queued = s.queued ∧
      (execute_job (Except.error e) s).maxWorkers = s.maxWorkers ∧
      poolStep s (PoolEvent.finishBody true) = poolStep s (PoolEvent.finishBody false) ∧
      s'.queued = s.queued ∧ s'.maxWorkers = s.maxWorkers ∧ s'.starting = s.starting := by
  refine ⟨rfl, rfl, rfl, rfl, rfl, ?_, ?_, ?_⟩ <;>
  · simp only [poolStep] at h
    split at h
    · injection h with h
      subst h
      rfl
    · exact absurd h (by simp)

/-- C8 witness: the theorem applied to a pool with one executing job that
raises. -/
theorem job_failure_isolated_witness :
    execute_job (Except.error "boom") ⟨2, 0, false, 0, 1, 0, 1⟩ =
        execute_job (Except.ok ()) ⟨2, 0, false, 0, 1, 0, 1⟩ ∧
      (execute_job (Except.error "boom") ⟨2, 0, false, 0, 1, 0, 1⟩).activeWorkers =
        (⟨2, 0, false, 0, 1, 0, 1⟩ : PoolState).activeWorkers - 1 ∧
      (execute_job (Except.error "boom") ⟨2, 0, false, 0, 1, 0, 1⟩).queued =
        (⟨2, 0, false, 0, 1, 0, 1⟩ : PoolState).queued ∧
      (execute_job (Except.error "boom") ⟨2, 0, false, 0, 1, 0, 1⟩).maxWorkers =
        (⟨2, 0, false, 0, 1, 0, 1⟩ : PoolState).maxWorkers ∧
      poolStep ⟨2, 0, false, 0, 1, 0, 1⟩ (PoolEvent.finishBody true) =
        poolStep ⟨2, 0, false, 0, 1, 0, 1⟩ (PoolEvent.finishBody false) ∧
      (⟨2, 0, false, 0, 0, 1, 1⟩ : PoolState).queued =
        (⟨2, 0, false, 0, 1, 0, 1⟩ : PoolState).queued ∧
      (⟨2, 0, false, 0, 0, 1, 1⟩ : PoolState).maxWorkers =
        (⟨2, 0, false, 0, 1, 0, 1⟩ : PoolState).maxWorkers ∧
      (⟨2, 0, false, 0, 0, 1, 1⟩ : PoolState).starting =
        (⟨2, 0, false, 0, 1, 0, 1⟩ : PoolState).starting :=
  job_failure_isolated "boom" true ⟨2, 0, false, 0, 1, 0, 1⟩ ⟨2, 0, false, 0, 0, 1, 1⟩
    (by decide)

/-! ## Claim theorems: job progress and terminal states (C7, C3) -/

/-- C7 counterexample: `increment_job_progress` is a read-modify-write of
the stored counters, not an atomic increment.  When two row completions
of a two-row job both read the stored record before either writes, the
final `processed_rows` is 1, not the 2 that the same two increments
produce when serialized — a lost update. -/
theorem increment_lost_update :
    (incrementWrite (incrementWrite c7job (incrementRead c7job) false 1)
        (incrementRead c7job) false 2).processed_rows = 1 ∧
      (increment_job_progress (increment_job_progress c7job false 1) false 2).processed_rows = 2 ∧
      ¬ (incrementWrite (incrementWrite c7job (incrementRead c7job) false 1)
          (incrementRead c7job) false 2).processed_rows = 2 := by
  decide

/-- Field bookkeeping of one `increment_job_progress` call. -/
theorem increment_fields (j : JobRecord) (f : Bool) (now : Nat) :
    (increment_job_progress j f now).processed_rows = j.processed_rows + 1 ∧
      (increment_job_progress j f now).failed_rows =
        j.failed_rows + (if f then 1 else 0) ∧
      (increment_job_progress j f now).total_rows = j.total_rows := by
  unfold increment_job_progress incrementWrite incrementRead
  refine ⟨?_, ?_, ?_⟩
  · simp [apply_ite (f := JobRecord.processed_rows)]
  · simp [apply_ite (f := JobRecord.failed_rows)]
  · simp [apply_ite (f := JobRecord.total_rows)]

/-- C7 (amended): the store's increment is a non-atomic get-then-update,
so concurrently interleaved invocations can lose updates
(`increment_lost_update`); the shipped batch runners, however, issue a
job's increments serially from the job's own thread (csv_service's row
loop; linkedin_csv_service's single `as_completed` consumer), and under
serial invocation each completed row increases `processed_rows` by
exactly one and `failed_rows` by exactly one per failed row. -/
theorem serial_increments_exact (flags : List Bool) (j : JobRecord) (now : Nat) :
    (runRowIncrements j flags now).processed_rows = j.processed_rows + flags.length ∧
      (runRowIncrements j flags now).failed_rows = j.failed_rows + flags.count true ∧
      (runRowIncrements j flags now).total_rows = j.total_rows := by
  induction flags generalizing j with
  | nil => simp [runRowIncrements]
  | cons f rest ih =>
    have hrec := ih (increment_job_progress j f now)
    have hfld := increment_fields j f now
    simp only [runRowIncrements, List.foldl_cons] at hrec ⊢
    refine ⟨?_, ?_, ?_⟩
    · rw [hrec.1, hfld.1, List.length_cons]
      omega
    · rw [hrec.2.1, hfld.2.1, List.count_cons]
      cases f
      · simp
      · simp
        omega
    · rw [hrec.2.2, hfld.2.2]

/-- C3 counterexample: a one-row job auto-completes inside
`increment_job_progress` when its single row finishes, yet when the
output upload fails the runner's final `update_job_status` overwrites the
terminal `completed` with `failed` (and restamps `completed_at`). -/
theorem job_completed_then_failed :
    (runRowIncrements
        (update_job_status (freshJob 1) 1 (some "processing") none none none none none)
        [false] 2).status = "completed" ∧
      (process_csv_background (freshJob 1) (CsvInput.rows [false]) none 3).status = "failed" ∧
      (process_csv_background (freshJob 1) (CsvInput.rows [false]) none 3).completed_at = some 3 := by
  decide

/-- A full tally of serial increments ends in the auto-completed state. -/
theorem runRowIncrements_completes :
    ∀ (flags : List Bool) (j : JobRecord) (now : Nat), flags ≠ [] →
      j.processed_rows + flags.length = j.total_rows →
      (runRowIncrements j flags now).status = "completed" ∧
        (runRowIncrements j flags now).processed_rows = j.total_rows ∧
        (runRowIncrements j flags now).completed_at = some now := by
  intro flags
  induction flags with
  | nil => intro j now h; exact absurd rfl h
  | cons f rest ih =>
    intro j now _ hsum
    rcases eq_or_ne rest [] with hrest | hrest
    · subst hrest
      simp only [List.length_cons, List.length_nil, Nat.zero_add] at hsum
      simp only [runRowIncrements, List.foldl_cons, List.foldl_nil]
      unfold increment_job_progress incrementWrite incrementRead
      simp only []
      rw [if_pos (by omega)]
      exact ⟨rfl, by simp only []; omega, rfl⟩
    · have hfld := increment_fields j f now
      have hlen : rest.length + 1 = (f :: rest).length := by simp
      have := ih (increment_job_progress j f now) now hrest
        (by rw [hfld.1, hfld.2.2]; simp at hsum ⊢; omega)
      rw [hfld.2.2] at this
      simpa only [runRowIncrements, List.foldl_cons] using this

/-- The `processing` status write at the start of the runner changes only
the status field. -/
theorem update_processing_eq (j : JobRecord) (now : Nat) :
    update_job_status j now (some "processing") none none none none none =
      { j with status := "processing" } := by
  rfl

/-- Status after the runner's terminal writes. -/
theorem finalize_status (j : JobRecord) (upload : Option String) (now : Nat) :
    (finalizeCsvJob j upload now).status =
      (if truthyStr upload then "completed" else "failed") := by
  unfold finalizeCsvJob update_job_status
  by_cases h : truthyStr upload
  · rw [if_pos h, if_pos h]
    simp [truthyStr, apply_ite (f := JobRecord.status)]
  · rw [if_neg h, if_neg h]
    simp [truthyStr, apply_ite (f := JobRecord.status)]

/-- C3 (amended): terminal states are not final in the store — the job
auto-completes inside `increment_job_progress` when the tally reaches
`totalRows`, and the batch runner afterwards performs exactly one more
terminal write: `completed` with the output path when the upload
succeeds, `failed` with an error message when it does not; neither
`update_job_status` nor `increment_job_progress` guards on an existing
terminal status. -/
theorem job_auto_complete_then_final_write (j : JobRecord) (flags : List Bool)
    (upload : Option String) (now : Nat)
    (h0 : j.processed_rows = 0) (h1 : j.total_rows = flags.length) (hne : ¬ flags = []) :
    (runRowIncrements
        (update_job_status j now (some "processing") none none none none none)
        flags now).status = "completed" ∧
      (process_csv_background j (CsvInput.rows flags) upload now).status =
        (if truthyStr upload then "completed" else "failed") := by
  have hmid := runRowIncrements_completes flags
    (update_job_status j now (some "processing") none none none none none) now hne
    (by rw [update_processing_eq]; simp only []; omega)
  refine ⟨hmid.1, ?_⟩
  unfold process_csv_background
  rw [finalize_status]

/-- C3 witness: the amended theorem at a fresh two-row job whose upload
succeeds. -/
theorem job_auto_complete_then_final_write_witness :
    ((freshJob 2).processed_rows = 0 ∧ (freshJob 2).total_rows = [false, true].length ∧
      ¬ ([false, true] : List Bool) = []) ∧
    ((runRowIncrements
        (update_job_status (freshJob 2) 5 (some "processing") none none none none none)
        [false, true] 5).status = "completed" ∧
      (process_csv_background (freshJob 2) (CsvInput.rows [false, true])
          (some "jobs/7/output/f_output.csv") 5).status =
        (if truthyStr (some "jobs/7/output/f_output.csv") then "completed" else "failed")) :=
  ⟨⟨by decide, by decide, by decide⟩,
    job_auto_complete_then_final_write (freshJob 2) [false, true]
      (some "jobs/7/output/f_output.csv") 5 (by decide) (by decide) (by decide)⟩

/-! ## Claim theorems: scrape pipeline (C2, C6, C9) -/

theorem cacheLookup_insert (m : CacheMap) (k : String) (v : CacheVal) :
    cacheLookup (cacheInsert m k v) k = some v := by
  simp [cacheLookup, cacheInsert, List.find?_cons_of_pos]

/-- When every extractor returns empty, the gathered pre-validation sets
are empty whatever the contact-page discovery does. -/
theorem gatherContacts_empty (env : ScrapeEnv) (w html : String) (skip : Bool)
    (hEm : ∀ h, env.extractEmails h = [])
    (hPh : ∀ h, env.extractPhones h = [])
    (hLi : ∀ h, env.extractLinkedin h = ⟨[], []⟩) :
    (gatherContacts env w html skip).1 = ([], [], (⟨[], []⟩ : LinkedinUrls)) := by
  unfold gatherContacts
  simp only [hEm, hPh, hLi]
  by_cases hs : skip
  · rw [if_pos hs]
  · rw [if_neg hs]
    cases env.findContactPage w (env.extractLinks html w) with
    | none => rfl
    | some cp =>
      simp only []
      by_cases hcw : (cp == "" || cp == w) = true
      · rw [if_pos hcw]
      · rw [if_neg hcw]
        cases env.fetch cp with
        | none => rfl
        | some chtml =>
          simp only []
          by_cases hch : (chtml == "") = true
          · rw [if_pos hch]
          · rw [if_neg hch]
            rfl

/-- On a cache miss over a contact-free site, the `try` body returns the
`no_contacts_found` record and writes the empty record to the cache. -/
theorem scrapeMain_empty_site (env : ScrapeEnv) (cache : CacheMap) (w : String)
    (vli skip : Bool) (html : String)
    (hfetch : env.fetch w = some html) (hhtml : ¬ html = "")
    (hEm : ∀ h, env.extractEmails h = [])
    (hPh : ∀ h, env.extractPhones h = [])
    (hLi : ∀ h, env.extractLinkedin h = ⟨[], []⟩) :
    (scrapeMain env cache w vli skip).result =
        PyOutcome.val (ScrapeResult.info ⟨w, [], [], ⟨[], []⟩, "no_contacts_found"⟩) ∧
      (scrapeMain env cache w vli skip).cache =
        save_contact_to_cache env cache w [] [] ⟨[], []⟩ := by
  have hg := gatherContacts_empty env w html skip hEm hPh hLi
  unfold scrapeMain
  simp only [hfetch]
  rw [if_neg (by simpa using hhtml)]
  simp only [hg, List.isEmpty_nil, Bool.and_self, if_true]
  simp

/-- C2 (amended): a contact-free site yields `no_contacts_found` and an
empty cache record, and a second call within the TTL is served from the
cache without any fetch — but with status `success`, because
`save_contact_to_cache` persists no `status` field and the cache-hit path
defaults a missing status to `success`. -/
theorem empty_result_cached_without_status (env : ScrapeEnv) (cache : CacheMap)
    (raw : String) (wl : Str) (html : String)
    (hnorm : normalize_url raw.data = some wl)
    (hget : env.redisGetOk = true) (hset : env.redisSetOk = true)
    (hmiss : cacheLookup cache (String.mk wl) = none)
    (hfetch : env.fetch (String.mk wl) = some html) (hhtml : ¬ html = "")
    (hEm : ∀ h, env.extractEmails h = [])
    (hPh : ∀ h, env.extractPhones h = [])
    (hLi : ∀ h, env.extractLinkedin h = ⟨[], []⟩) :
    (scrape_website env cache raw false false).result =
        PyOutcome.val (ScrapeResult.info ⟨String.mk wl, [], [], ⟨[], []⟩, "no_contacts_found"⟩) ∧
      (scrape_website env (scrape_website env cache raw false false).cache raw false false).result =
        PyOutcome.val (ScrapeResult.info ⟨String.mk wl, [], [], ⟨[], []⟩, "success"⟩) ∧
      (scrape_website env (scrape_website env cache raw false false).cache raw false false).fetched = [] := by
  have hmiss' : get_contact_from_cache env cache (String.mk wl) = none := by
    unfold get_contact_from_cache
    rw [if_pos hget]
    exact hmiss
  have hmain := scrapeMain_empty_site env cache (String.mk wl) false false html
    hfetch hhtml hEm hPh hLi
  have hfirst : scrape_website env cache raw false false =
      scrapeMain env cache (String.mk wl) false false := by
    unfold scrape_website
    simp only [hnorm, hmiss']
  have hsave : save_contact_to_cache env cache (String.mk wl) [] [] ⟨[], []⟩ =
      cacheInsert cache (String.mk wl)
        (CacheVal.obj ⟨some (String.mk wl), some [], some [], some ⟨[], []⟩, none⟩) := by
    unfold save_contact_to_cache
    rw [if_pos hset]
  have hget2 : get_contact_from_cache env (scrape_website env cache raw false false).cache
      (String.mk wl) =
      some (CacheVal.obj ⟨some (String.mk wl), some [], some [], some ⟨[], []⟩, none⟩) := by
    rw [hfirst, hmain.2, hsave]
    unfold get_contact_from_cache
    rw [if_pos hget]
    exact cacheLookup_insert cache (String.mk wl) _
  have hsecond : ∀ cache2 : CacheMap,
      get_contact_from_cache env cache2 (String.mk wl) =
          some (CacheVal.obj ⟨some (String.mk wl), some [], some [], some ⟨[], []⟩, none⟩) →
      scrape_website env cache2 raw false false =
        { result := PyOutcome.val (ScrapeResult.info ⟨String.mk wl, [], [], ⟨[], []⟩, "success"⟩),
          cache := cache2, fetched := [] } := by
    intro cache2 hg2
    unfold scrape_website
    simp only [hnorm, hg2]
    rfl
  have hs2 := hsecond (scrape_website env cache raw false false).cache hget2
  refine ⟨by rw [hfirst]; exact hmain.1, by rw [hs2], by rw [hs2]⟩

/-- C2 witness: the amended theorem instantiated with the contact-free
site environment. -/
theorem empty_result_cached_without_status_witness :
    (normalize_url ("example.com".data) = some ("http://example.com".data) ∧
      cacheLookup [] (String.mk ("http://example.com".data)) = none ∧
      emptySiteEnv.fetch (String.mk ("http://example.com".data)) =
        some "<html><body>hello</body></html>") ∧
    ((scrape_website emptySiteEnv [] "example.com" false false).result =
        PyOutcome.val (ScrapeResult.info
          ⟨String.mk ("http://example.com".data), [], [], ⟨[], []⟩, "no_contacts_found"⟩) ∧
      (scrape_website emptySiteEnv
          (scrape_website emptySiteEnv [] "example.com" false false).cache
          "example.com" false false).result =
        PyOutcome.val (ScrapeResult.info
          ⟨String.mk ("http://example.com".data), [], [], ⟨[], []⟩, "success"⟩) ∧
      (scrape_website emptySiteEnv
          (scrape_website emptySiteEnv [] "example.com" false false).cache
          "example.com" false false).fetched = []) :=
  ⟨⟨by decide, by decide, rfl⟩,
    empty_result_cached_without_status emptySiteEnv [] "example.com"
      ("http://example.com".data) "<html><body>hello</body></html>"
      (by decide) rfl rfl (by decide) rfl (by decide)
      (fun _ => rfl) (fun _ => rfl) (fun _ => rfl)⟩

/-- C2 counterexample: concretely, the second call for a contact-free
site returns status `success`, not the `no_contacts_found` the first call
returned and the claim requires. -/
theorem cached_empty_status_not_roundtripped :
    (scrape_website emptySiteEnv [] "example.com" false false).result =
        PyOutcome.val (ScrapeResult.info ⟨"http://example.com", [], [], ⟨[], []⟩, "no_contacts_found"⟩) ∧
      (scrape_website emptySiteEnv (scrape_website emptySiteEnv [] "example.com" false false).cache
          "example.com" false false).result =
        PyOutcome.val (ScrapeResult.info ⟨"http://example.com", [], [], ⟨[], []⟩, "success"⟩) ∧
      ¬ (scrape_website emptySiteEnv (scrape_website emptySiteEnv [] "example.com" false false).cache
          "example.com" false false).result =
        PyOutcome.val (ScrapeResult.info ⟨"http://example.com", [], [], ⟨[], []⟩, "no_contacts_found"⟩) := by
  decide

/-- C6: when the validate-contacts call fails, `scrape_website` still
returns a result whose validated email and phone lists are empty, with
the pre-validation LinkedIn sets passed through; and whenever LinkedIn
validation was not requested the returned LinkedIn sets equal the
pre-validation sets regardless of the call's outcome. -/
theorem ai_validation_fail_closed (env : ScrapeEnv) (cache : CacheMap) (raw : String)
    (wl : Str) (html : String) (vli skip : Bool)
    (hnorm : normalize_url raw.data = some wl)
    (hmiss : get_contact_from_cache env cache (String.mk wl) = none)
    (hfetch : env.fetch (String.mk wl) = some html) (hhtml : ¬ html = "")
    (hne : ((gatherContacts env (String.mk wl) html skip).1.1.isEmpty &&
        (gatherContacts env (String.mk wl) html skip).1.2.1.isEmpty &&
        (gatherContacts env (String.mk wl) html skip).1.2.2.company.isEmpty &&
        (gatherContacts env (String.mk wl) html skip).1.2.2.personal.isEmpty) = false) :
    ((∀ e p l b, env.aiValidate e p l b = none) →
      (scrape_website env cache raw vli skip).result =
        PyOutcome.val (ScrapeResult.info ⟨String.mk wl, [], [],
          (gatherContacts env (String.mk wl) html skip).1.2.2, "success"⟩)) ∧
    (vli = false →
      ∃ es ps, (scrape_website env cache raw vli skip).result =
        PyOutcome.val (ScrapeResult.info ⟨String.mk wl, es, ps,
          (gatherContacts env (String.mk wl) html skip).1.2.2, "success"⟩)) := by
  have hred : scrape_website env cache raw vli skip =
      scrapeMain env cache (String.mk wl) vli skip := by
    unfold scrape_website
    simp only [hnorm, hmiss]
  have hmain : (scrapeMain env cache (String.mk wl) vli skip).result =
      PyOutcome.val (ScrapeResult.info ⟨String.mk wl,
        (validate_contacts env (gatherContacts env (String.mk wl) html skip).1.1
          (gatherContacts env (String.mk wl) html skip).1.2.1
          (gatherContacts env (String.mk wl) html skip).1.2.2 vli).valid_email.getD [],
        (validate_contacts env (gatherContacts env (String.mk wl) html skip).1.1
          (gatherContacts env (String.mk wl) html skip).1.2.1
          (gatherContacts env (String.mk wl) html skip).1.2.2 vli).valid_phones.getD [],
        (validate_contacts env (gatherContacts env (String.mk wl) html skip).1.1
          (gatherContacts env (String.mk wl) html skip).1.2.1
          (gatherContacts env (String.mk wl) html skip).1.2.2 vli).valid_linkedin_urls.getD ⟨[], []⟩,
        "success"⟩) := by
    unfold scrapeMain
    simp only [hfetch]
    rw [if_neg (by simpa using hhtml)]
    rw [if_neg (by simp [hne])]
  rw [hred]
  constructor
  · intro hai
    rw [hmain]
    simp [validate_contacts, hai]
  · intro hvli
    subst hvli
    cases hAI : env.aiValidate
        (pySetList ((gatherContacts env (String.mk wl) html skip).1.1.map pyLowerStrip))
        (pySetList ((gatherContacts env (String.mk wl) html skip).1.2.1.map pyStripStr))
        (gatherContacts env (String.mk wl) html skip).1.2.2 false with
    | none =>
      refine ⟨[], [], ?_⟩
      rw [hmain]
      simp [validate_contacts, hAI]
    | some v =>
      refine ⟨v.valid_email.getD [], v.valid_phones.getD [], ?_⟩
      rw [hmain]
      simp [validate_contacts, hAI]

/-- C6 witness: the theorem instantiated with a site carrying contacts
and a failing validation call. -/
theorem ai_validation_fail_closed_witness :
    (normalize_url ("example.com".data) = some ("http://example.com".data) ∧
      get_contact_from_cache aiDownEnv [] (String.mk ("http://example.com".data)) = none ∧
      aiDownEnv.fetch (String.mk ("http://example.com".data)) = some "<html>page</html>") ∧
    (((∀ e p l b, aiDownEnv.aiValidate e p l b = none) →
      (scrape_website aiDownEnv [] "example.com" false false).result =
        PyOutcome.val (ScrapeResult.info ⟨String.mk ("http://example.com".data), [], [],
          (gatherContacts aiDownEnv (String.mk ("http://example.com".data))
            "<html>page</html>" false).1.2.2, "success"⟩)) ∧
    (false = false →
      ∃ es ps, (scrape_website aiDownEnv [] "example.com" false false).result =
        PyOutcome.val (ScrapeResult.info ⟨String.mk ("http://example.com".data), es, ps,
          (gatherContacts aiDownEnv (String.mk ("http://example.com".data))
            "<html>page</html>" false).1.2.2, "success"⟩))) :=
  ⟨⟨by decide, rfl, rfl⟩,
    ai_validation_fail_closed aiDownEnv [] "example.com" ("http://example.com".data)
      "<html>page</html>" false false (by decide) rfl rfl (by decide) (by decide)⟩

/-- Every branch of the `try` body returns a value. -/
theorem scrapeMain_returns_value (env : ScrapeEnv) (cache : CacheMap) (w : String)
    (vli skip : Bool) : ∃ r, (scrapeMain env cache w vli skip).result = PyOutcome.val r := by
  unfold scrapeMain
  cases env.fetch w with
  | none => exact ⟨_, rfl⟩
  | some html =>
    simp only []
    split
    · exact ⟨_, rfl⟩
    · split
      · exact ⟨_, rfl⟩
      · exact ⟨_, rfl⟩

/-- A well-formed cached record always constructs a `ContactInfo`. -/
theorem contactInfoFromCache_ok {cv : CacheVal} (h : wellFormedCacheVal cv) :
    ∃ c, contactInfoFromCache cv = Except.ok c := by
  cases cv with
  | nonObj d => exact absurd h (by simp [wellFormedCacheVal])
  | obj d =>
    obtain ⟨hsk, hweb⟩ := h
    cases hw : d.website with
    | none => rw [hw] at hweb; simp at hweb
    | some w =>
      exact ⟨⟨w, d.emails.getD [], d.phones.getD [], d.linkedin_urls.getD ⟨[], []⟩, "success"⟩, by
        simp only [contactInfoFromCache]
        rw [hsk, hw]⟩

/-- C9 (amended): `scrape_website` returns a `ContactInfo` or
`ContactErrorResponse` for every raw input and every fetch/extraction/AI
behaviour, provided each cached value under the contact namespace is
well-formed (the shape `save_contact_to_cache` writes); the cache-hit
path runs outside the `try` block, so a malformed cached JSON value is
the one way an exception escapes. -/
theorem scrape_website_total_on_wellformed_cache (env : ScrapeEnv) (cache : CacheMap)
    (raw : String) (vli skip : Bool)
    (hwf : ∀ k v, cacheLookup cache k = some v → wellFormedCacheVal v) :
    ∃ r, (scrape_website env cache raw vli skip).result = PyOutcome.val r := by
  unfold scrape_website
  cases hn : normalize_url raw.data with
  | none => exact ⟨_, rfl⟩
  | some wl =>
    simp only []
    cases hg : get_contact_from_cache env cache (String.mk wl) with
    | none => exact scrapeMain_returns_value env cache (String.mk wl) vli skip
    | some cv =>
      have hcv : wellFormedCacheVal cv := by
        unfold get_contact_from_cache at hg
        by_cases hr : env.redisGetOk = true
        · rw [if_pos hr] at hg
          exact hwf _ _ hg
        · rw [if_neg hr] at hg
          exact absurd hg (by simp)
      obtain ⟨c, hc⟩ := contactInfoFromCache_ok hcv
      simp only [hc]
      exact ⟨_, rfl⟩

/-- C9 witness: the amended theorem at an invalid raw URL over an empty
(hence well-formed) cache. -/
theorem scrape_website_total_witness :
    ∃ r, (scrape_website emptySiteEnv [] "bad url ##" false false).result = PyOutcome.val r :=
  scrape_website_total_on_wellformed_cache emptySiteEnv [] "bad url ##" false false
    (fun k v h => by simp [cacheLookup] at h)

/-- C9 counterexample: a cache hit on a truthy JSON object lacking the
`website` field raises out of `scrape_website` — the pydantic
construction on the cache-hit path runs outside the `try` block. -/
theorem scrape_website_cache_hit_raises :
    (scrape_website emptySiteEnv malformedCache "example.com" false false).result =
      PyOutcome.exn "ValidationError: website field required" := by
  decide

end ContactScraper
